import Mathlib

/-!
Verification of the realtime leaderboard service.

The definitions below are a shallow embedding of the Go sources and of the
SQL schema in the Makefile:

* `leaderboard_view` (Makefile): a SQL view computing
  `DENSE_RANK() OVER (PARTITION BY season ORDER BY score DESC, timestamp ASC)`
  over the join of `scores` and `users`, ordered by
  `(season, score DESC, timestamp ASC)`.
* `GetLeaderboard` (internal/leaderboard/repository/score_repository.go):
  `SELECT rank, user_id, user_name, score, season, timestamp FROM leaderboard_view
   WHERE season = ? ORDER BY <orderBy> LIMIT ? OFFSET ?`, plus a season
  row count, where `orderBy` is the string `scores.score DESC` unless the
  caller passed `asc`, in which case it is `score ASC`.
* `SubmitScore` service and HTTP handler, the websocket `Hub`
  (`broadcastToSeason`, `Broadcast`, `triggerPeriodicUpdates`) and the
  client `ReadPump` message handling.

The default branch of `GetLeaderboard` orders by `scores.score`, but the
outer query's only FROM item is `leaderboard_view` (inside the view the
`scores` table is aliased `s`), so PostgreSQL rejects every such query at
parse analysis with `missing FROM-clause entry for table "scores"`; the
repository wraps the error as `failed to query leaderboard: ...` and
returns it.  The embedding models that branch as this error value.  Only
the `asc` branch, `ORDER BY score ASC` (a valid output-column reference),
runs.

SQL `ORDER BY` leaves the relative order of rows that compare equal
unspecified; the embedding instantiates it with a stable sort
(`List.insertionSort`), so ties keep the underlying table order.  The
window function `DENSE_RANK` is embedded by its defining property: one
plus the number of distinct sort keys strictly ahead of the row's key in
the window order.
-/

namespace Leaderboard

/-- A row of the `scores` table joined with its owner from `users`
(`scores.user_id`, `users.name`, `scores.score`, `scores.season`,
`scores.timestamp`).  Timestamps are modelled as naturals. -/
structure ScoreRow where
  userId : String
  userName : String
  score : Int
  timestamp : Nat
  season : String
deriving Repr, DecidableEq

/-- The sort key of the view's window: `(score, timestamp)`. -/
def rowKey (r : ScoreRow) : Int × Nat := (r.score, r.timestamp)

/-- Strict "ranked strictly ahead" order on window keys:
`ORDER BY score DESC, timestamp ASC`. -/
def keyAbove (a b : Int × Nat) : Prop :=
  b.1 < a.1 ∨ (a.1 = b.1 ∧ a.2 < b.2)

instance : DecidableRel keyAbove := fun a b => by
  unfold keyAbove; exact inferInstance

/-- The weak version of the view ordering on rows
(`score DESC, timestamp ASC`). -/
def viewLE (a b : ScoreRow) : Prop :=
  b.score < a.score ∨ (a.score = b.score ∧ a.timestamp ≤ b.timestamp)

instance : DecidableRel viewLE := fun a b => by
  unfold viewLE; exact inferInstance

instance : IsTotal ScoreRow viewLE :=
  ⟨by intro a b; unfold viewLE; omega⟩

instance : IsTrans ScoreRow viewLE :=
  ⟨by intro a b c; unfold viewLE; omega⟩

/-- The rows of one season (`WHERE season = ?` over the `scores` table). -/
def seasonRows (rows : List ScoreRow) (season : String) : List ScoreRow :=
  rows.filter (fun r => r.season == season)

/-- The season's rows in the view's window order
(`ORDER BY score DESC, timestamp ASC`, stable in table order). -/
def sortedSeason (rows : List ScoreRow) (season : String) : List ScoreRow :=
  (seasonRows rows season).insertionSort viewLE

/-- The distinct `(score, timestamp)` window keys of a collection of rows. -/
def keySet (srows : List ScoreRow) : Finset (Int × Nat) :=
  (srows.map rowKey).toFinset

/-- `DENSE_RANK` of a row within the season window: one plus the number of
distinct `(score, timestamp)` keys ranked strictly ahead of the row's key. -/
def denseRank (srows : List ScoreRow) (r : ScoreRow) : Nat :=
  1 + ((keySet srows).filter (fun k => keyAbove k (rowKey r))).card

/-- A derived leaderboard row as selected from `leaderboard_view`. -/
structure LeaderboardEntry where
  rank : Nat
  userId : String
  userName : String
  score : Int
  timestamp : Nat
  season : String
deriving Repr, DecidableEq

/-- One selected view row: the joined columns plus the window's rank,
computed against the season's rows `srows`. -/
def toEntry (srows : List ScoreRow) (r : ScoreRow) : LeaderboardEntry :=
  { rank := denseRank srows r
    userId := r.userId
    userName := r.userName
    score := r.score
    timestamp := r.timestamp
    season := r.season }

/-- The rows of `leaderboard_view` restricted to one season, in the view's
order, each carrying its season-global `DENSE_RANK`. -/
def viewEntries (rows : List ScoreRow) (season : String) : List LeaderboardEntry :=
  (sortedSeason rows season).map (toEntry (seasonRows rows season))

/-- The outer `ORDER BY score ASC` of `GetLeaderboard`'s `asc` branch. -/
def entryScoreAsc (a b : LeaderboardEntry) : Prop := a.score ≤ b.score

instance : DecidableRel entryScoreAsc := fun a b => by
  unfold entryScoreAsc; exact inferInstance

instance : IsTotal LeaderboardEntry entryScoreAsc :=
  ⟨by intro a b; unfold entryScoreAsc; omega⟩

instance : IsTrans LeaderboardEntry entryScoreAsc :=
  ⟨by intro a b c; unfold entryScoreAsc; omega⟩

/-- `PostgresScoreRepository.GetLeaderboard`.  For `asc`: select the
season's view rows, re-sort by `score ASC` only, apply `OFFSET`/`LIMIT`,
and pair with `CountBySeason`.  For every other sort order the built
query is `ORDER BY scores.score DESC`, where `scores` is not a relation
of the outer query (its only FROM item is `leaderboard_view`), so
PostgreSQL rejects the query with a missing FROM-clause entry and the
method returns the wrapped error. -/
def GetLeaderboard (rows : List ScoreRow) (season : String)
    (limit offset : Nat) (sortOrder : String) :
    Except String (List LeaderboardEntry × Nat) :=
  if sortOrder == "asc" then
    Except.ok
      (((((viewEntries rows season).insertionSort entryScoreAsc).drop offset).take limit),
        (seasonRows rows season).length)
  else
    Except.error "failed to query leaderboard: missing FROM-clause entry for table scores"

/-- `LeaderboardService.GetUserRank`: fetch the first 100000 entries of the
season in `desc` order — a call that always fails, see `GetLeaderboard` —
propagating the wrapped error; on a successful fetch it would linearly
scan for the user and report not-found for an absent user. -/
def GetUserRank (rows : List ScoreRow) (userId season0 : String) :
    Except String LeaderboardEntry :=
  match GetLeaderboard rows (if season0 == "" then "global" else season0)
      100000 0 "desc" with
  | Except.error e => Except.error ("failed to get leaderboard: " ++ e)
  | Except.ok (entries, _) =>
    match entries.find? (fun e => e.userId == userId) with
    | some e => Except.ok e
    | none => Except.error "user not found in leaderboard"

/-! ### Score submission (service and HTTP handler) -/

/-- The score bounds from configuration (`ValidationConfig` in
shared/config/config.go). -/
structure ValidationConfig where
  minScore : Int
  maxScore : Int
deriving Repr, DecidableEq

/-- The body of a submit-score request. -/
structure SubmitScoreRequest where
  score : Int
  season : String
  metadata : Option String
deriving Repr, DecidableEq

/-- A persisted row of the `scores` table as written by `SubmitScore`. -/
structure StoredScore where
  userId : String
  score : Int
  season : String
  metadata : Option String
  timestamp : Nat
deriving Repr, DecidableEq

/-- `PostgresScoreRepository.FindByUserAndSeason`: the single row for
`(user_id, season)`, if any. -/
def FindByUserAndSeason (store : List StoredScore) (userId season : String) :
    Option StoredScore :=
  store.find? (fun r => r.userId == userId && r.season == season)

/-- `PostgresScoreRepository.Upsert`: `INSERT ... ON CONFLICT (user_id, season)
DO UPDATE SET score, metadata, timestamp`. -/
def Upsert (store : List StoredScore) (s : StoredScore) : List StoredScore :=
  if store.any (fun r => r.userId == s.userId && r.season == s.season) then
    store.map (fun r =>
      if r.userId == s.userId && r.season == s.season then
        { r with score := s.score, metadata := s.metadata, timestamp := s.timestamp }
      else r)
  else store ++ [s]

/-- `LeaderboardService.SubmitScore`: resolve the season (default
`"global"`), validate the value against `[minScore, maxScore]`, and upsert
on success.  The pair returned is (service result, store after the call);
`now` stands for the commit timestamp. -/
def SubmitScore (cfg : ValidationConfig) (store : List StoredScore)
    (userId : String) (req : SubmitScoreRequest) (now : Nat) :
    Except String StoredScore × List StoredScore :=
  let season := if req.season == "" then "global" else req.season
  if req.score < cfg.minScore then
    (Except.error "score cannot be less than minimum", store)
  else if req.score > cfg.maxScore then
    (Except.error "score exceeds maximum allowed value", store)
  else
    let sc : StoredScore :=
      { userId := userId, score := req.score, season := season
        metadata := req.metadata, timestamp := now }
    (Except.ok sc, Upsert store sc)

/-- `LeaderboardHandler.SubmitScore` (HTTP): 401 without an authenticated
user, 400 on an unreadable body or a negative value, 500 on any error from
the service, 200 otherwise. -/
def SubmitScoreHandler (cfg : ValidationConfig) (store : List StoredScore)
    (auth : Option String) (body : Option SubmitScoreRequest) (now : Nat) :
    Nat × List StoredScore :=
  match auth with
  | none => (401, store)
  | some uid =>
    match body with
    | none => (400, store)
    | some req =>
      if req.score < 0 then (400, store)
      else
        match SubmitScore cfg store uid req now with
        | (Except.ok _, store1) => (200, store1)
        | (Except.error _, _) => (500, store)

/-! ### Websocket client (`ReadPump` inbound control messages) -/

/-- The mutable per-connection state touched by `ReadPump`. -/
structure ClientState where
  requestedLimit : Int
deriving Repr, DecidableEq

/-- A decoded inbound frame: its `"type"` field and its `"limit"` field
when present (already truncated from JSON float to Go `int`). -/
structure InboundMessage where
  msgType : String
  limit : Option Int
deriving Repr, DecidableEq

/-- One iteration of `Client.ReadPump` on a decoded frame: an
`update_limit` message stores its `limit` field into `RequestedLimit`
verbatim; every other frame (including undecodable ones, `none`) is
ignored. -/
def readPumpProcessMessage (c : ClientState) (m : Option InboundMessage) :
    ClientState :=
  match m with
  | some msg =>
    if msg.msgType == "update_limit" then
      match msg.limit with
      | some n => { c with requestedLimit := n }
      | none => c
    else c
  | none => c

/-! ### Websocket hub -/

/-- `Hub.broadcastToSeason`, per-client projection:
`if len(entries) > client.RequestedLimit { entries = entries[:client.RequestedLimit] }`.
A Go slice expression with a negative bound panics, embedded as an error. -/
def filterEntriesForClient (entries : List LeaderboardEntry)
    (requestedLimit : Int) : Except String (List LeaderboardEntry) :=
  if (entries.length : Int) > requestedLimit then
    if requestedLimit < 0 then Except.error "slice bounds out of range"
    else Except.ok (entries.take requestedLimit.toNat)
  else Except.ok entries

/-- The fan-out of one broadcast envelope over the season's clients
(each client given by its `RequestedLimit`): the payload computed for
each client in `Hub.broadcastToSeason`. -/
def broadcastToSeason (clientLimits : List Int)
    (entries : List LeaderboardEntry) : List (Except String (List LeaderboardEntry)) :=
  clientLimits.map (fun k => filterEntriesForClient entries k)

/-- The fold inside `Hub.triggerPeriodicUpdates`:
`maxLimit := h.defaultLimit; for client { if client.RequestedLimit > maxLimit ... }`. -/
def bucketMaxLimit (defaultLimit : Int) (clientLimits : List Int) : Int :=
  clientLimits.foldl (fun acc l => if l > acc then l else acc) defaultLimit

/-- `Hub.triggerPeriodicUpdates`: the `season -> limit` map handed to
`OnPeriodicUpdate`, built from the season buckets (each bucket a season
with the `RequestedLimit`s of its clients); buckets without clients are
skipped. -/
def triggerPeriodicUpdates (buckets : List (String × List Int))
    (defaultLimit : Int) : List (String × Int) :=
  (buckets.filter (fun b => !b.2.isEmpty)).map
    (fun b => (b.1, bucketMaxLimit defaultLimit b.2))

/-- A broadcast envelope as queued on `Hub.BroadcastChan`. -/
structure BroadcastMessage where
  season : String
  entries : List LeaderboardEntry
deriving Repr, DecidableEq

/-- `Hub.Broadcast`: non-blocking send on the buffered channel
`BroadcastChan` (capacity 256), modelled on the channel's queue: when the
queue has room the envelope is appended, otherwise it is dropped and the
queue is unchanged. -/
def HubBroadcast (chan : List BroadcastMessage) (m : BroadcastMessage) :
    List BroadcastMessage :=
  if chan.length < 256 then chan ++ [m] else chan

/-! ### Concrete inputs -/

/-- The seeded scenario: A submits 1000, B submits 800, C submits 900, and
D submits 900 at a later timestamp than C, all in season `global`. -/
def seededScores : List ScoreRow :=
  [ { userId := "A", userName := "A", score := 1000, timestamp := 5, season := "global" },
    { userId := "B", userName := "B", score := 800, timestamp := 15, season := "global" },
    { userId := "C", userName := "C", score := 900, timestamp := 10, season := "global" },
    { userId := "D", userName := "D", score := 900, timestamp := 20, season := "global" } ]

/-- Two rows with identical score and identical timestamp, inserted with
the lexicographically larger user id first. -/
def tiedScores : List ScoreRow :=
  [ { userId := "b", userName := "b", score := 500, timestamp := 7, season := "global" },
    { userId := "a", userName := "a", score := 500, timestamp := 7, season := "global" } ]

/-! ### The ordering asserted by the specification (for comparison with
the code's ordering) -/

/-- The `desc` ordering the specification asserts for returned pages:
`(value DESC, timestamp ASC, user_id ASC)`.  User ids are compared
lexicographically via their character lists. -/
def specDescOrder (a b : LeaderboardEntry) : Prop :=
  b.score < a.score
    ∨ (a.score = b.score ∧ a.timestamp < b.timestamp)
    ∨ (a.score = b.score ∧ a.timestamp = b.timestamp ∧ a.userId.data < b.userId.data)

/-- The `asc` ordering the specification asserts: the mirror of
`specDescOrder`. -/
def specAscOrder (a b : LeaderboardEntry) : Prop := specDescOrder b a

instance : DecidableRel specDescOrder := fun a b => by
  unfold specDescOrder; exact inferInstance

instance : DecidableRel specAscOrder := fun a b => by
  unfold specAscOrder specDescOrder; exact inferInstance

/-! ### Helper lemmas about the window order -/

theorem keyAbove_irrefl (k : Int × Nat) : ¬ keyAbove k k := by
  unfold keyAbove; omega

theorem keyAbove_trans {a b c : Int × Nat} (h1 : keyAbove a b) (h2 : keyAbove b c) :
    keyAbove a c := by
  unfold keyAbove at h1 h2 ⊢; omega

theorem keyAbove_trichotomy (a b : Int × Nat) : keyAbove a b ∨ a = b ∨ keyAbove b a := by
  rcases a with ⟨s1, t1⟩; rcases b with ⟨s2, t2⟩
  unfold keyAbove
  simp only [Prod.mk.injEq]
  omega

theorem viewLE_iff (a b : ScoreRow) : viewLE a b ↔ ¬ keyAbove (rowKey b) (rowKey a) := by
  unfold viewLE keyAbove rowKey; dsimp only; omega

theorem sortedSeason_perm (rows : List ScoreRow) (season : String) :
    List.Perm (sortedSeason rows season) (seasonRows rows season) :=
  List.perm_insertionSort _ _

theorem sortedSeason_sorted (rows : List ScoreRow) (season : String) :
    (sortedSeason rows season).Pairwise viewLE :=
  List.sorted_insertionSort _ _

theorem rowKey_mem_keySet {srows : List ScoreRow} {r : ScoreRow} (h : r ∈ srows) :
    rowKey r ∈ keySet srows := by
  unfold keySet
  simp only [List.mem_toFinset, List.mem_map]
  exact ⟨r, h, rfl⟩

theorem keySet_mem {srows : List ScoreRow} {k : Int × Nat} (h : k ∈ keySet srows) :
    ∃ r ∈ srows, rowKey r = k := by
  unfold keySet at h
  simpa using List.mem_toFinset.mp h

theorem card_above_succ (S : Finset (Int × Nat)) {ka kb : Int × Nat}
    (haS : ka ∈ S) (hab : keyAbove ka kb)
    (hbtw : ∀ k ∈ S, keyAbove k kb → keyAbove k ka ∨ k = ka) :
    (S.filter (fun k => keyAbove k kb)).card
      = (S.filter (fun k => keyAbove k ka)).card + 1 := by
  have hins : S.filter (fun k => keyAbove k kb)
      = insert ka (S.filter (fun k => keyAbove k ka)) := by
    ext k
    simp only [Finset.mem_filter, Finset.mem_insert]
    constructor
    · rintro ⟨hkS, hk⟩
      rcases hbtw k hkS hk with h | h
      · exact Or.inr ⟨hkS, h⟩
      · exact Or.inl h
    · rintro (rfl | ⟨hkS, hk⟩)
      · exact ⟨haS, hab⟩
      · exact ⟨hkS, keyAbove_trans hk hab⟩
  rw [hins, Finset.card_insert_of_not_mem]
  simp only [Finset.mem_filter, not_and]
  intro _
  exact keyAbove_irrefl ka

/-- The central step: in the view's order, an adjacent pair either shares
its window key (and then its dense rank), or the second row's dense rank
is exactly one more than the first row's. -/
theorem denseRank_step (rows : List ScoreRow) (season : String) (i : Nat)
    (h1 : i < (sortedSeason rows season).length)
    (h2 : i + 1 < (sortedSeason rows season).length) :
    if rowKey ((sortedSeason rows season).get ⟨i, h1⟩)
        = rowKey ((sortedSeason rows season).get ⟨i + 1, h2⟩)
    then denseRank (seasonRows rows season) ((sortedSeason rows season).get ⟨i + 1, h2⟩)
        = denseRank (seasonRows rows season) ((sortedSeason rows season).get ⟨i, h1⟩)
    else denseRank (seasonRows rows season) ((sortedSeason rows season).get ⟨i + 1, h2⟩)
        = denseRank (seasonRows rows season) ((sortedSeason rows season).get ⟨i, h1⟩) + 1 := by
  have hsort := sortedSeason_sorted rows season
  have hperm := sortedSeason_perm rows season
  have hpw := List.pairwise_iff_get.mp hsort
  set l := sortedSeason rows season with hldef
  set sr := seasonRows rows season with hsrdef
  set a := l.get ⟨i, h1⟩ with hadef
  set b := l.get ⟨i + 1, h2⟩ with hbdef
  by_cases hkey : rowKey a = rowKey b
  · simp only [if_pos hkey]
    unfold denseRank
    rw [hkey]
  · simp only [if_neg hkey]
    have hle : viewLE a b := hpw ⟨i, h1⟩ ⟨i + 1, h2⟩ (Nat.lt_succ_self i)
    have hab : keyAbove (rowKey a) (rowKey b) := by
      rcases keyAbove_trichotomy (rowKey a) (rowKey b) with h | h | h
      · exact h
      · exact absurd h hkey
      · exact absurd h ((viewLE_iff a b).mp hle)
    have haS : rowKey a ∈ keySet sr :=
      rowKey_mem_keySet (hperm.mem_iff.mp (l.get_mem i h1))
    have hbtw : ∀ k ∈ keySet sr, keyAbove k (rowKey b) →
        keyAbove k (rowKey a) ∨ k = rowKey a := by
      intro k hkS hkb
      rcases keyAbove_trichotomy k (rowKey a) with h | h | h
      · exact Or.inl h
      · exact Or.inr h
      · exfalso
        obtain ⟨r, hr, hrk⟩ := keySet_mem hkS
        obtain ⟨⟨j, hj⟩, hgetj⟩ := List.mem_iff_get.mp (hperm.mem_iff.mpr hr)
        rcases Nat.lt_trichotomy j i with hj1 | hj1 | hj1
        · have hvle : viewLE (l.get ⟨j, hj⟩) a := hpw ⟨j, hj⟩ ⟨i, h1⟩ hj1
          rw [hgetj] at hvle
          rw [← hrk] at h
          exact (viewLE_iff r a).mp hvle h
        · subst hj1
          have hra : r = a := by rw [← hgetj, hadef]
          rw [hra] at hrk
          rw [← hrk] at h
          exact keyAbove_irrefl _ h
        · rcases Nat.lt_or_ge j (i + 1 + 1) with hj2 | hj2
          · have hji : j = i + 1 := by omega
            subst hji
            have hrb : r = b := by rw [← hgetj, hbdef]
            rw [hrb] at hrk
            rw [← hrk] at hkb
            exact keyAbove_irrefl _ hkb
          · have hvle : viewLE b (l.get ⟨j, hj⟩) :=
              hpw ⟨i + 1, h2⟩ ⟨j, hj⟩ (show i + 1 < j by omega)
            rw [hgetj] at hvle
            rw [← hrk] at hkb
            exact (viewLE_iff b r).mp hvle hkb
    unfold denseRank
    rw [card_above_succ (keySet sr) haS hab hbtw]
    omega

theorem denseRank_chain (rows : List ScoreRow) (season : String) :
    List.Chain' (fun a b : ScoreRow =>
      if rowKey a = rowKey b
      then denseRank (seasonRows rows season) b = denseRank (seasonRows rows season) a
      else denseRank (seasonRows rows season) b = denseRank (seasonRows rows season) a + 1)
      (sortedSeason rows season) := by
  rw [List.chain'_iff_get]
  intro i hi
  exact denseRank_step rows season i (by omega) (by omega)

theorem denseRank_first (rows : List ScoreRow) (season : String)
    (h : 0 < (sortedSeason rows season).length) :
    denseRank (seasonRows rows season) ((sortedSeason rows season).get ⟨0, h⟩) = 1 := by
  have hsort := sortedSeason_sorted rows season
  have hperm := sortedSeason_perm rows season
  have hpw := List.pairwise_iff_get.mp hsort
  unfold denseRank
  have hempty : (keySet (seasonRows rows season)).filter
      (fun k => keyAbove k (rowKey ((sortedSeason rows season).get ⟨0, h⟩))) = ∅ := by
    rw [Finset.filter_eq_empty_iff]
    intro k hkS
    obtain ⟨r, hr, hrk⟩ := keySet_mem hkS
    obtain ⟨⟨j, hj⟩, hgetj⟩ := List.mem_iff_get.mp (hperm.mem_iff.mpr hr)
    rcases Nat.eq_zero_or_pos j with hj0 | hj0
    · subst hj0
      have hr0 : r = (sortedSeason rows season).get ⟨0, h⟩ := by rw [← hgetj]
      rw [hr0] at hrk
      rw [← hrk]
      exact keyAbove_irrefl _
    · have hvle : viewLE ((sortedSeason rows season).get ⟨0, h⟩)
          ((sortedSeason rows season).get ⟨j, hj⟩) :=
        hpw ⟨0, h⟩ ⟨j, hj⟩ (show 0 < j from hj0)
      rw [hgetj] at hvle
      rw [← hrk]
      exact (viewLE_iff _ r).mp hvle
  rw [hempty]
  simp

theorem entryKeyEq_iff (sr : List ScoreRow) (a b : ScoreRow) :
    ((toEntry sr a).score = (toEntry sr b).score ∧
      (toEntry sr a).timestamp = (toEntry sr b).timestamp) ↔ rowKey a = rowKey b := by
  unfold toEntry rowKey
  dsimp only
  rw [Prod.mk.injEq]

theorem viewEntries_chain (rows : List ScoreRow) (season : String) :
    List.Chain' (fun a b : LeaderboardEntry =>
      if a.score = b.score ∧ a.timestamp = b.timestamp
      then b.rank = a.rank else b.rank = a.rank + 1)
      (viewEntries rows season) := by
  unfold viewEntries
  rw [List.chain'_map]
  apply (denseRank_chain rows season).imp
  intro a b h
  by_cases hkey : rowKey a = rowKey b
  · rw [if_pos hkey] at h
    rw [if_pos ((entryKeyEq_iff (seasonRows rows season) a b).mpr hkey)]
    exact h
  · rw [if_neg hkey] at h
    rw [if_neg (fun hc => hkey ((entryKeyEq_iff (seasonRows rows season) a b).mp hc))]
    exact h

theorem viewEntries_first (rows : List ScoreRow) (season : String)
    (h : 0 < (viewEntries rows season).length) :
    ((viewEntries rows season).get ⟨0, h⟩).rank = 1 := by
  unfold viewEntries at h ⊢
  rw [List.get_map]
  exact denseRank_first rows season (by simpa using h)

/-! ### Store lemmas for score submission -/

theorem find?_map_update (store : List StoredScore) (s : StoredScore)
    (hany : store.any (fun r => r.userId == s.userId && r.season == s.season) = true) :
    ∃ r, (store.map (fun r =>
        if r.userId == s.userId && r.season == s.season then
          { r with score := s.score, metadata := s.metadata, timestamp := s.timestamp }
        else r)).find? (fun r => r.userId == s.userId && r.season == s.season) = some r
      ∧ r.score = s.score ∧ r.metadata = s.metadata ∧ r.timestamp = s.timestamp := by
  induction store with
  | nil => simp at hany
  | cons x xs ih =>
    rw [List.map_cons]
    by_cases hx : (x.userId == s.userId && x.season == s.season) = true
    · refine ⟨{ x with score := s.score, metadata := s.metadata, timestamp := s.timestamp },
        ?_, rfl, rfl, rfl⟩
      rw [if_pos hx]
      exact List.find?_cons_of_pos _ hx
    · rw [if_neg hx]
      have hany2 : xs.any (fun r => r.userId == s.userId && r.season == s.season) = true := by
        rw [List.any_cons] at hany
        rcases Bool.or_eq_true_iff.mp hany with h | h
        · exact absurd h hx
        · exact h
      obtain ⟨r, hfind, h1, h2, h3⟩ := ih hany2
      refine ⟨r, ?_, h1, h2, h3⟩
      rw [List.find?_cons_of_neg _ (by simpa using hx)]
      exact hfind

theorem find?_append_new (store : List StoredScore) (s : StoredScore)
    (hany : store.any (fun r => r.userId == s.userId && r.season == s.season) = false) :
    (store ++ [s]).find? (fun r => r.userId == s.userId && r.season == s.season) = some s := by
  induction store with
  | nil =>
    simp [List.find?_cons_of_pos]
  | cons x xs ih =>
    rw [List.any_cons, Bool.or_eq_false_iff] at hany
    rw [List.cons_append, List.find?_cons_of_neg _ (by simp [hany.1])]
    exact ih hany.2

theorem find_upsert (store : List StoredScore) (s : StoredScore) :
    ∃ r, FindByUserAndSeason (Upsert store s) s.userId s.season = some r
      ∧ r.score = s.score ∧ r.metadata = s.metadata ∧ r.timestamp = s.timestamp := by
  unfold Upsert FindByUserAndSeason
  by_cases hany : store.any (fun r => r.userId == s.userId && r.season == s.season) = true
  · rw [if_pos hany]
    exact find?_map_update store s hany
  · rw [if_neg hany]
    refine ⟨s, ?_, rfl, rfl, rfl⟩
    exact find?_append_new store s (Bool.not_eq_true _ ▸ Bool.of_not_eq_true hany)

/-! ### Hub periodic-update lemmas -/

theorem bucketMaxLimit_default_le (cs : List Int) : ∀ d : Int, d ≤ bucketMaxLimit d cs := by
  induction cs with
  | nil => intro d; exact le_refl d
  | cons x xs ih =>
    intro d
    unfold bucketMaxLimit at ih ⊢
    rw [List.foldl_cons]
    refine le_trans ?_ (ih (if x > d then x else d))
    by_cases hx : x > d
    · rw [if_pos hx]; exact le_of_lt hx
    · rw [if_neg hx]

theorem bucketMaxLimit_mem_le (cs : List Int) : ∀ (d : Int), ∀ k ∈ cs, k ≤ bucketMaxLimit d cs := by
  induction cs with
  | nil => intro d k hk; simp at hk
  | cons x xs ih =>
    intro d k hk
    unfold bucketMaxLimit at ih ⊢
    rw [List.foldl_cons]
    rcases List.mem_cons.mp hk with rfl | hk2
    · refine le_trans ?_ (bucketMaxLimit_default_le xs (if k > d then k else d))
      by_cases hx : k > d
      · rw [if_pos hx]
      · rw [if_neg hx]; omega
    · exact ih _ k hk2

theorem bucketMaxLimit_cases (cs : List Int) :
    ∀ d : Int, bucketMaxLimit d cs = d ∨ bucketMaxLimit d cs ∈ cs := by
  induction cs with
  | nil => intro d; exact Or.inl rfl
  | cons x xs ih =>
    intro d
    unfold bucketMaxLimit at ih ⊢
    rw [List.foldl_cons]
    rcases ih (if x > d then x else d) with h | h
    · rw [h]
      by_cases hx : x > d
      · rw [if_pos hx]
        exact Or.inr (List.mem_cons_self x xs)
      · rw [if_neg hx]
        exact Or.inl rfl
    · exact Or.inr (List.mem_cons_of_mem x h)

theorem lookup_trigger_mem (buckets : List (String × List Int)) (d : Int)
    (hnodup : (buckets.map Prod.fst).Nodup) :
    ∀ {s : String} {cs : List Int}, (s, cs) ∈ buckets → cs ≠ [] →
      (triggerPeriodicUpdates buckets d).lookup s = some (bucketMaxLimit d cs) := by
  induction buckets with
  | nil => intro s cs hmem; simp at hmem
  | cons b rest ih =>
    intro s cs hmem hne
    rcases b with ⟨s0, cs0⟩
    rw [List.map_cons, List.nodup_cons] at hnodup
    unfold triggerPeriodicUpdates at ih ⊢
    rw [List.filter_cons]
    rcases List.mem_cons.mp hmem with heq | hmem2
    · injection heq with hs hcs
      subst hs; subst hcs
      have hemp : (!(s, cs).2.isEmpty) = true := by
        rw [Bool.not_eq_eq_eq_not]
        simpa [List.isEmpty_iff] using hne
      rw [if_pos hemp, List.map_cons]
      exact List.lookup_cons_self
    · have hs : s ≠ s0 := by
        intro hc
        subst hc
        exact hnodup.1 (by simpa using List.mem_map_of_mem Prod.fst hmem2)
      have hbeq : (s == s0) = false := by
        rw [beq_eq_false_iff_ne]; exact hs
      by_cases hemp : (!cs0.isEmpty) = true
      · rw [if_pos hemp, List.map_cons, List.lookup_cons, hbeq]
        exact ih hnodup.2 hmem2 hne
      · rw [if_neg hemp]
        exact ih hnodup.2 hmem2 hne

theorem lookup_trigger_none (buckets : List (String × List Int)) (d : Int) :
    ∀ {s : String}, (∀ cs, (s, cs) ∈ buckets → cs = []) →
      (triggerPeriodicUpdates buckets d).lookup s = none := by
  induction buckets with
  | nil => intro s _; rfl
  | cons b rest ih =>
    intro s habs
    rcases b with ⟨s0, cs0⟩
    unfold triggerPeriodicUpdates at ih ⊢
    rw [List.filter_cons]
    by_cases hemp : (!cs0.isEmpty) = true
    · rw [if_pos hemp, List.map_cons]
      have hs : s ≠ s0 := by
        intro hc
        subst hc
        have := habs cs0 (List.mem_cons_self _ _)
        subst this
        simp at hemp
      have hbeq : (s == s0) = false := by
        rw [beq_eq_false_iff_ne]; exact hs
      rw [List.lookup_cons, hbeq]
      exact ih (fun cs hcs => habs cs (List.mem_cons_of_mem _ hcs))
    · rw [if_neg hemp]
      exact ih (fun cs hcs => habs cs (List.mem_cons_of_mem _ hcs))

/-! ### Claim theorems -/

/-- C1 counterexample: for the seeded scores A=1000, C=900, D=900 (later
timestamp), B=800 in season global, the desc page call does not return a
page at all — let alone one with ranks [1, 2, 2, 3] — but the wrapped SQL
error: the built query `ORDER BY scores.score DESC` references a relation
absent from the outer query over `leaderboard_view`. -/
theorem C1_counterexample :
    GetLeaderboard seededScores "global" 10 0 "desc"
      = Except.error "failed to query leaderboard: missing FROM-clause entry for table scores"
    ∧ (GetLeaderboard seededScores "global" 10 0 "desc").toOption = none :=
  ⟨rfl, rfl⟩

/-- C1 (amended): every desc GetLeaderboard call fails with the wrapped
missing-FROM-clause error, so no desc page is ever returned.  The view
itself (which any repaired query would read) carries a season-global
DENSE_RANK over (value DESC, timestamp ASC): the first view entry has
rank 1, entries share a rank exactly when both value and timestamp are
equal, and each next distinct (value, timestamp) advances the rank by
exactly 1; under that window the seeded scores rank [1, 2, 3, 4] with C
before D, not [1, 2, 2, 3]. -/
theorem C1_desc_error_view_dense_rank (rows : List ScoreRow) (season : String)
    (limit offset : Nat) :
    GetLeaderboard rows season limit offset "desc"
        = Except.error "failed to query leaderboard: missing FROM-clause entry for table scores"
    ∧ List.Chain' (fun a b : LeaderboardEntry =>
        if a.score = b.score ∧ a.timestamp = b.timestamp
        then b.rank = a.rank else b.rank = a.rank + 1) (viewEntries rows season)
    ∧ (∀ h : 0 < (viewEntries rows season).length,
        ((viewEntries rows season).get ⟨0, h⟩).rank = 1)
    ∧ (viewEntries seededScores "global").map (fun e => (e.userId, e.rank))
        = [("A", 1), ("C", 2), ("D", 3), ("B", 4)] :=
  ⟨rfl, viewEntries_chain rows season, fun h => viewEntries_first rows season h,
    by decide⟩

/-- C1 witness: the amended statement instantiated on the seeded scores. -/
theorem C1_desc_error_view_dense_rank_witness :
    GetLeaderboard seededScores "global" 10 0 "desc"
        = Except.error "failed to query leaderboard: missing FROM-clause entry for table scores"
    ∧ List.Chain' (fun a b : LeaderboardEntry =>
        if a.score = b.score ∧ a.timestamp = b.timestamp
        then b.rank = a.rank else b.rank = a.rank + 1) (viewEntries seededScores "global")
    ∧ ((viewEntries seededScores "global").get ⟨0, by decide⟩).rank = 1
    ∧ (viewEntries seededScores "global").map (fun e => (e.userId, e.rank))
        = [("A", 1), ("C", 2), ("D", 3), ("B", 4)] := by
  obtain ⟨h1, h2, h3, h4⟩ := C1_desc_error_view_dense_rank seededScores "global" 10 0
  exact ⟨h1, h2, h3 (by decide), h4⟩

/-- C2 counterexample: the desc call never returns a page (the built
query has an unresolvable `scores.score` reference), so no desc ordering
can be observed at all; and the asc page of the seeded scores keeps
timestamp ASC within equal scores (C, rank 2, before D, rank 3), so it is
not the mirror of the claimed (value DESC, timestamp ASC, user_id ASC)
ordering. -/
theorem C2_counterexample :
    GetLeaderboard tiedScores "global" 10 0 "desc"
      = Except.error "failed to query leaderboard: missing FROM-clause entry for table scores"
    ∧ GetLeaderboard seededScores "global" 10 0 "asc"
      = Except.ok
        ([{ rank := 4, userId := "B", userName := "B", score := 800, timestamp := 15,
              season := "global" },
          { rank := 2, userId := "C", userName := "C", score := 900, timestamp := 10,
              season := "global" },
          { rank := 3, userId := "D", userName := "D", score := 900, timestamp := 20,
              season := "global" },
          { rank := 1, userId := "A", userName := "A", score := 1000, timestamp := 5,
              season := "global" }], 4)
    ∧ ¬ ([({ rank := 4, userId := "B", userName := "B", score := 800, timestamp := 15,
              season := "global" } : LeaderboardEntry),
          { rank := 2, userId := "C", userName := "C", score := 900, timestamp := 10,
              season := "global" },
          { rank := 3, userId := "D", userName := "D", score := 900, timestamp := 20,
              season := "global" },
          { rank := 1, userId := "A", userName := "A", score := 1000, timestamp := 5,
              season := "global" }].Pairwise specAscOrder) :=
  ⟨rfl, rfl, by decide⟩

/-- C2 (amended): no desc page is ever returned — the desc query fails
with the wrapped missing-FROM-clause error.  Every asc page that is
returned is ordered by value ascending only: neither a user_id tie-break
nor a mirrored (descending) timestamp order exists within equal values. -/
theorem C2_desc_error_asc_by_score (rows : List ScoreRow) (season : String)
    (limit offset : Nat) :
    GetLeaderboard rows season limit offset "desc"
        = Except.error "failed to query leaderboard: missing FROM-clause entry for table scores"
    ∧ ∀ page count, GetLeaderboard rows season limit offset "asc"
          = Except.ok (page, count) →
        page.Pairwise entryScoreAsc := by
  refine ⟨rfl, ?_⟩
  intro page count h
  have hx : GetLeaderboard rows season limit offset "asc"
      = Except.ok
        (((((viewEntries rows season).insertionSort entryScoreAsc).drop offset).take limit),
          (seasonRows rows season).length) := rfl
  rw [hx] at h
  injection h with hpair
  injection hpair with hpage hcount
  rw [← hpage]
  exact List.Pairwise.sublist ((List.take_sublist _ _).trans (List.drop_sublist _ _))
    (List.sorted_insertionSort entryScoreAsc (viewEntries rows season))

/-- C2 witness: the amended statement on the seeded scores, with the asc
hypothesis discharged by evaluation. -/
theorem C2_desc_error_asc_by_score_witness :
    GetLeaderboard seededScores "global" 10 0 "desc"
        = Except.error "failed to query leaderboard: missing FROM-clause entry for table scores"
    ∧ ([({ rank := 4, userId := "B", userName := "B", score := 800, timestamp := 15,
            season := "global" } : LeaderboardEntry),
        { rank := 2, userId := "C", userName := "C", score := 900, timestamp := 10,
            season := "global" },
        { rank := 3, userId := "D", userName := "D", score := 900, timestamp := 20,
            season := "global" },
        { rank := 1, userId := "A", userName := "A", score := 1000, timestamp := 5,
            season := "global" }].Pairwise entryScoreAsc) := by
  obtain ⟨h1, h2⟩ := C2_desc_error_asc_by_score seededScores "global" 10 0
  exact ⟨h1, h2 _ 4 rfl⟩

/-- C3: SubmitScore rejects a value outside [min_score, max_score] with an
error and leaves the store untouched; an in-range value is upserted and the
persisted score (with the resolved season and commit timestamp) is
returned. -/
theorem C3_submit_score_validation (cfg : ValidationConfig) (store : List StoredScore)
    (userId : String) (req : SubmitScoreRequest) (now : Nat) :
    ((req.score < cfg.minScore ∨ cfg.maxScore < req.score) →
      (∃ msg, (SubmitScore cfg store userId req now).1 = Except.error msg)
      ∧ (SubmitScore cfg store userId req now).2 = store)
    ∧ (cfg.minScore ≤ req.score → req.score ≤ cfg.maxScore →
      (SubmitScore cfg store userId req now).1 = Except.ok
        { userId := userId, score := req.score
          season := if req.season == "" then "global" else req.season
          metadata := req.metadata, timestamp := now }
      ∧ ∃ r, FindByUserAndSeason (SubmitScore cfg store userId req now).2 userId
            (if req.season == "" then "global" else req.season) = some r
          ∧ r.score = req.score ∧ r.metadata = req.metadata ∧ r.timestamp = now) := by
  constructor
  · intro hout
    unfold SubmitScore
    rcases hout with h | h
    · rw [if_pos h]
      exact ⟨⟨_, rfl⟩, rfl⟩
    · by_cases h1 : req.score < cfg.minScore
      · rw [if_pos h1]
        exact ⟨⟨_, rfl⟩, rfl⟩
      · rw [if_neg h1, if_pos h]
        exact ⟨⟨_, rfl⟩, rfl⟩
  · intro h1 h2
    unfold SubmitScore
    rw [if_neg (not_lt.mpr h1), if_neg (not_lt.mpr h2)]
    exact ⟨rfl, find_upsert store _⟩

/-- C3 witness: an out-of-range submission (101 with max 100) is rejected
without touching the store, and an in-range one (50) is persisted. -/
theorem C3_submit_score_validation_witness :
    ((∃ msg, (SubmitScore { minScore := 0, maxScore := 100 } [] "u"
        { score := 101, season := "", metadata := none } 9).1 = Except.error msg)
      ∧ (SubmitScore { minScore := 0, maxScore := 100 } [] "u"
        { score := 101, season := "", metadata := none } 9).2 = [])
    ∧ ((SubmitScore { minScore := 0, maxScore := 100 } [] "u"
        { score := 50, season := "", metadata := none } 9).1 = Except.ok
        { userId := "u", score := 50, season := "global", metadata := none, timestamp := 9 }
      ∧ ∃ r, FindByUserAndSeason (SubmitScore { minScore := 0, maxScore := 100 } [] "u"
            { score := 50, season := "", metadata := none } 9).2 "u" "global" = some r
          ∧ r.score = 50 ∧ r.metadata = none ∧ r.timestamp = 9) := by
  constructor
  · exact (C3_submit_score_validation { minScore := 0, maxScore := 100 } [] "u"
      { score := 101, season := "", metadata := none } 9).1 (by decide)
  · exact (C3_submit_score_validation { minScore := 0, maxScore := 100 } [] "u"
      { score := 50, season := "", metadata := none } 9).2 (by decide) (by decide)

/-- C5: evaluation at the failing input.  The claim's pagination algebra
(disjoint windows of a fixed ordered sequence under LIMIT/OFFSET) is what
the intended query would deliver, and the repository's own integration
test asserts that desc pages do not overlap; but both desc page queries
fail with the wrapped missing-FROM-clause error, so no pages exist to be
disjoint or concatenated. -/
theorem C5_desc_pages_error :
    GetLeaderboard seededScores "global" 2 0 "desc"
      = Except.error "failed to query leaderboard: missing FROM-clause entry for table scores"
    ∧ GetLeaderboard seededScores "global" 2 2 "desc"
      = Except.error "failed to query leaderboard: missing FROM-clause entry for table scores"
    ∧ (GetLeaderboard seededScores "global" 2 0 "desc").toOption = none
    ∧ (GetLeaderboard seededScores "global" 2 2 "desc").toOption = none :=
  ⟨rfl, rfl, rfl, rfl⟩

/-- C6 counterexample: user C has a score row in season global, yet
GetUserRank returns the wrapped query error — not a leaderboard entry —
because the rank lookup goes through the desc page query, which always
fails. -/
theorem C6_counterexample :
    ({ userId := "C", userName := "C", score := 900, timestamp := 10,
        season := "global" } : ScoreRow) ∈ seasonRows seededScores "global"
    ∧ GetUserRank seededScores "C" "global"
      = Except.error "failed to get leaderboard: failed to query leaderboard: missing FROM-clause entry for table scores"
    ∧ (GetUserRank seededScores "C" "global").toOption = none :=
  ⟨by decide, rfl, rfl⟩

/-- C6 (amended): GetUserRank returns the wrapped desc-query error for
every user and season — users with a score row included — because it
always fetches the season through GetLeaderboard with order desc, whose
query is invalid; the linear scan and the not-found branch are
unreachable. -/
theorem C6_user_rank_always_error (rows : List ScoreRow) (u season : String) :
    GetUserRank rows u season
      = Except.error "failed to get leaderboard: failed to query leaderboard: missing FROM-clause entry for table scores" := by
  unfold GetUserRank GetLeaderboard
  rfl

/-- C4: during the Hub's fan-out of one envelope, the payload computed for
every subscriber with nonnegative requested limit k is exactly the first
min(len(entries), k) entries of the envelope, its length never exceeds k,
and that payload is among the fan-out's outputs. -/
theorem C4_projection_prefix (entries : List LeaderboardEntry)
    (clientLimits : List Int) (k : Int) (hk : 0 ≤ k) (hmem : k ∈ clientLimits) :
    filterEntriesForClient entries k
        = Except.ok (entries.take (min entries.length k.toNat))
    ∧ (entries.take (min entries.length k.toNat)).length ≤ k.toNat
    ∧ Except.ok (entries.take (min entries.length k.toNat))
        ∈ broadcastToSeason clientLimits entries := by
  have hmain : filterEntriesForClient entries k
      = Except.ok (entries.take (min entries.length k.toNat)) := by
    unfold filterEntriesForClient
    by_cases hlen : (entries.length : Int) > k
    · rw [if_pos hlen, if_neg (not_lt.mpr hk)]
      have hmin : min entries.length k.toNat = k.toNat := by omega
      rw [hmin]
    · rw [if_neg hlen]
      have hmin : min entries.length k.toNat = entries.length := by omega
      rw [hmin, List.take_length]
  refine ⟨hmain, ?_, ?_⟩
  · rw [List.length_take]
    omega
  · unfold broadcastToSeason
    rw [← hmain]
    exact List.mem_map_of_mem _ hmem

/-- C4 witness: a subscriber with limit 2 receives exactly the first two
of three entries. -/
theorem C4_projection_prefix_witness :
    filterEntriesForClient (viewEntries seededScores "global") 2
        = Except.ok ((viewEntries seededScores "global").take
            (min (viewEntries seededScores "global").length (Int.toNat 2)))
    ∧ ((viewEntries seededScores "global").take
        (min (viewEntries seededScores "global").length (Int.toNat 2))).length ≤ Int.toNat 2
    ∧ Except.ok ((viewEntries seededScores "global").take
        (min (viewEntries seededScores "global").length (Int.toNat 2)))
        ∈ broadcastToSeason [5, 2] (viewEntries seededScores "global") :=
  C4_projection_prefix (viewEntries seededScores "global") [5, 2] 2 (by decide) (by decide)

/-- C7 counterexample: the control message type update_limit with limit 0
stores requested_limit 0, which lies outside [1, max_limit] for every
max_limit: ReadPump performs no clamping. -/
theorem C7_counterexample :
    readPumpProcessMessage { requestedLimit := 50 }
        (some { msgType := "update_limit", limit := some 0 })
      = { requestedLimit := 0 }
    ∧ ¬ (1 ≤ (0 : Int)) :=
  ⟨rfl, by decide⟩

/-- C7 (amended): an update_limit message stores its limit field into
requested_limit verbatim — no clamping to [1, max_limit] — and every
other message leaves the client state unchanged. -/
theorem C7_unclamped_limit (c : ClientState) (n : Int) :
    (readPumpProcessMessage c
        (some { msgType := "update_limit", limit := some n })).requestedLimit = n
    ∧ (∀ m : Option InboundMessage,
        (∀ msg, m = some msg → msg.msgType ≠ "update_limit" ∨ msg.limit = none) →
        readPumpProcessMessage c m = c) := by
  constructor
  · rfl
  · intro m hm
    match m with
    | none => rfl
    | some msg =>
      unfold readPumpProcessMessage
      dsimp only
      rcases hm msg rfl with h | h
      · rw [if_neg (by simpa using h)]
      · by_cases ht : (msg.msgType == "update_limit") = true
        · rw [if_pos ht, h]
        · rw [if_neg ht]

/-- C7 witness: an update_limit message stores 7 verbatim, and a message
of a different type leaves the stored limit at 50. -/
theorem C7_unclamped_limit_witness :
    (readPumpProcessMessage { requestedLimit := 50 }
        (some { msgType := "update_limit", limit := some 7 })).requestedLimit = 7
    ∧ readPumpProcessMessage { requestedLimit := 50 }
        (some { msgType := "ping", limit := some 3 }) = { requestedLimit := 50 } := by
  obtain ⟨h1, h2⟩ := C7_unclamped_limit { requestedLimit := 50 } 7
  refine ⟨h1, h2 _ ?_⟩
  intro msg hmsg
  cases hmsg
  exact Or.inl (by decide)

/-- C8 counterexample: a season with one subscriber whose requested limit
is 1, under default limit 50, is reported to the periodic callback with
limit 50 — not the bucket maximum 1 — because the fold starts from the
hub's default limit. -/
theorem C8_counterexample :
    (triggerPeriodicUpdates [("global", [1])] 50).lookup "global" = some 50
    ∧ (∀ k ∈ [(1 : Int)], k ≤ 1) ∧ (50 : Int) ≠ 1 :=
  ⟨rfl, by decide, by decide⟩

/-- C8 (amended): the limit reported for a season with at least one
subscriber is the maximum of the hub's default limit and the subscribers'
requested limits (it is an upper bound of both that is attained by one of
them); seasons with no subscribers, or absent from the bucket map, are
omitted from the callback's map. -/
theorem C8_default_floor_max (buckets : List (String × List Int)) (defaultLimit : Int)
    (hnodup : (buckets.map Prod.fst).Nodup) :
    (∀ s cs, (s, cs) ∈ buckets → cs ≠ [] →
      ∃ L, (triggerPeriodicUpdates buckets defaultLimit).lookup s = some L
        ∧ defaultLimit ≤ L ∧ (∀ k ∈ cs, k ≤ L) ∧ (L = defaultLimit ∨ L ∈ cs))
    ∧ (∀ s, (∀ cs, (s, cs) ∈ buckets → cs = []) →
        (triggerPeriodicUpdates buckets defaultLimit).lookup s = none) := by
  constructor
  · intro s cs hmem hne
    refine ⟨bucketMaxLimit defaultLimit cs,
      lookup_trigger_mem buckets defaultLimit hnodup hmem hne,
      bucketMaxLimit_default_le cs defaultLimit,
      bucketMaxLimit_mem_le cs defaultLimit,
      bucketMaxLimit_cases cs defaultLimit⟩
  · intro s habs
    exact lookup_trigger_none buckets defaultLimit habs

/-- C8 witness: one season with subscribers at limits 1 and 80 under
default 50 is reported with 80; an empty bucket is omitted. -/
theorem C8_default_floor_max_witness :
    (∃ L, (triggerPeriodicUpdates [("global", [1, 80]), ("empty", [])] 50).lookup "global"
        = some L
      ∧ (50 : Int) ≤ L ∧ (∀ k ∈ [(1 : Int), 80], k ≤ L) ∧ (L = 50 ∨ L ∈ [(1 : Int), 80]))
    ∧ (triggerPeriodicUpdates [("global", [1, 80]), ("empty", [])] 50).lookup "empty"
        = none := by
  obtain ⟨h1, h2⟩ := C8_default_floor_max [("global", [1, 80]), ("empty", [])] 50 (by decide)
  refine ⟨h1 "global" [1, 80] (by decide) (by decide), h2 "empty" ?_⟩
  intro cs hcs
  rcases List.mem_cons.mp hcs with heq | hcs2
  · injection heq with he1 he2
    exact absurd he1 (by decide)
  · rcases List.mem_cons.mp hcs2 with heq | hcs3
    · exact congrArg Prod.snd heq
    · simp at hcs3

/-- C9 counterexample: an authenticated submission of 101 under max_score
100 is answered with status 500, not the claimed 400: the handler maps
every service error, including the service's bounds validation, to 500. -/
theorem C9_counterexample :
    SubmitScoreHandler { minScore := 0, maxScore := 100 } [] (some "u")
        (some { score := 101, season := "global", metadata := none }) 0 = (500, [])
    ∧ (500 : Nat) ≠ 400 :=
  ⟨rfl, by decide⟩

/-- C9 (amended): the handler returns 401 without an authenticated user;
400 only for a negative value (its own check); 500 whenever the service
rejects the value against the configured bounds — the same status as an
upstream failure — and 200 when the value is within bounds. -/
theorem C9_status_codes (cfg : ValidationConfig) (store : List StoredScore)
    (uid : String) (req : SubmitScoreRequest) (now : Nat) :
    (SubmitScoreHandler cfg store none (some req) now).1 = 401
    ∧ (req.score < 0 → (SubmitScoreHandler cfg store (some uid) (some req) now).1 = 400)
    ∧ (0 ≤ req.score → (req.score < cfg.minScore ∨ cfg.maxScore < req.score) →
        (SubmitScoreHandler cfg store (some uid) (some req) now).1 = 500)
    ∧ (0 ≤ req.score → cfg.minScore ≤ req.score → req.score ≤ cfg.maxScore →
        (SubmitScoreHandler cfg store (some uid) (some req) now).1 = 200) := by
  refine ⟨rfl, ?_, ?_, ?_⟩
  · intro hneg
    unfold SubmitScoreHandler
    dsimp only
    rw [if_pos hneg]
  · intro h0 hout
    unfold SubmitScoreHandler
    dsimp only
    rw [if_neg (not_lt.mpr h0)]
    unfold SubmitScore
    rcases hout with h | h
    · rw [if_pos h]
    · by_cases h1 : req.score < cfg.minScore
      · rw [if_pos h1]
      · rw [if_neg h1, if_pos h]
  · intro h0 h1 h2
    unfold SubmitScoreHandler
    dsimp only
    rw [if_neg (not_lt.mpr h0)]
    unfold SubmitScore
    rw [if_neg (not_lt.mpr h1), if_neg (not_lt.mpr h2)]

/-- C9 witness: the four statuses at concrete requests under bounds
[0, 100]: 401 unauthenticated, 400 for a negative value, 500 for 101,
200 for 50. -/
theorem C9_status_codes_witness :
    (SubmitScoreHandler { minScore := 0, maxScore := 100 } [] none
        (some { score := 50, season := "global", metadata := none }) 0).1 = 401
    ∧ (SubmitScoreHandler { minScore := 0, maxScore := 100 } [] (some "u")
        (some { score := -3, season := "global", metadata := none }) 0).1 = 400
    ∧ (SubmitScoreHandler { minScore := 0, maxScore := 100 } [] (some "u")
        (some { score := 101, season := "global", metadata := none }) 0).1 = 500
    ∧ (SubmitScoreHandler { minScore := 0, maxScore := 100 } [] (some "u")
        (some { score := 50, season := "global", metadata := none }) 0).1 = 200 := by
  refine ⟨?_, ?_, ?_, ?_⟩
  · exact (C9_status_codes { minScore := 0, maxScore := 100 } [] "u"
      { score := 50, season := "global", metadata := none } 0).1
  · exact (C9_status_codes { minScore := 0, maxScore := 100 } [] "u"
      { score := -3, season := "global", metadata := none } 0).2.1 (by decide)
  · exact (C9_status_codes { minScore := 0, maxScore := 100 } [] "u"
      { score := 101, season := "global", metadata := none } 0).2.2.1 (by decide) (by decide)
  · exact (C9_status_codes { minScore := 0, maxScore := 100 } [] "u"
      { score := 50, season := "global", metadata := none } 0).2.2.2 (by decide) (by decide) (by decide)

/-- C10: Hub.Broadcast is non-blocking: with room in the 256-slot channel
the envelope is appended; when the channel is full the envelope is
silently dropped — the channel is unchanged and the envelope is nowhere in
it — so such a broadcast never reaches any subscriber. -/
theorem C10_broadcast_nonblocking (chan : List BroadcastMessage) (m : BroadcastMessage) :
    (chan.length < 256 → HubBroadcast chan m = chan ++ [m])
    ∧ (256 ≤ chan.length → HubBroadcast chan m = chan)
    ∧ (256 ≤ chan.length → m ∉ chan → m ∉ HubBroadcast chan m) := by
  refine ⟨fun h => ?_, fun h => ?_, fun h hm => ?_⟩
  · unfold HubBroadcast
    rw [if_pos h]
  · unfold HubBroadcast
    rw [if_neg (not_lt.mpr h)]
  · unfold HubBroadcast
    rw [if_neg (not_lt.mpr h)]
    exact hm

/-- C10 witness: a concrete full channel (256 queued envelopes for season
s) silently drops a new envelope for season global, which therefore never
appears in the channel; an empty channel accepts it. -/
theorem C10_broadcast_nonblocking_witness :
    HubBroadcast (List.replicate 256 { season := "s", entries := [] })
        { season := "global", entries := [] }
      = List.replicate 256 { season := "s", entries := [] }
    ∧ { season := "global", entries := ([] : List LeaderboardEntry) }
        ∉ HubBroadcast (List.replicate 256 { season := "s", entries := [] })
            { season := "global", entries := [] }
    ∧ HubBroadcast [] { season := "global", entries := [] }
        = [] ++ [{ season := "global", entries := [] }] := by
  obtain ⟨h1, h2, h3⟩ := C10_broadcast_nonblocking
    (List.replicate 256 { season := "s", entries := [] })
    { season := "global", entries := [] }
  have hlen : (List.replicate 256
      ({ season := "s", entries := [] } : BroadcastMessage)).length = 256 :=
    List.length_replicate _ _
  refine ⟨h2 (le_of_eq hlen.symm), h3 (le_of_eq hlen.symm) ?_, ?_⟩
  · intro hmem
    exact absurd (List.eq_of_mem_replicate hmem) (by decide)
  · obtain ⟨g1, g2, g3⟩ := C10_broadcast_nonblocking [] { season := "global", entries := [] }
    exact g1 (by decide)

end Leaderboard
